import Mathlib

/-!
Verification of the openrouter-cli core against its specification.

This file shallowly embeds the core subsystems of the repository in Lean 4:

* the Transport Client retry loop (`internal/api/client.go` `doWithRetry`,
  `shouldRetry`, `isRetryableStatus`, `isSuccessStatus`, and the `Chat`
  response handler);
* the SSE Stream Reader (`internal/api/stream.go` `StreamReader.Next`,
  `StreamReader.Close`);
* the custom JSON encoding of chat messages (`internal/api/types.go`
  `Message.MarshalJSON` / `Message.UnmarshalJSON`), modelled at the level of
  the JSON value tree produced/consumed by `encoding/json`;
* the input-history structures (`internal/tui/chat/history.go`
  `HistoryNavigator.Add`, `internal/config/session.go` `Session.AppendHistory`);
* the ESC-key handling of the chat state machine (`Model.Update`, `KeyEsc`
  branch);
* the stream session close/cancel logic (`internal/tui/chat/stream.go`
  `StreamState.Close` / `StreamState.Cancel`).

Machine integers of Go are modelled as `Nat` (status codes, nanosecond
durations); fallible Go functions return `Except`/`Option`.  External
collaborators that do not live in this repository (Go's `encoding/json`
string-level parser, the HTTP stack, `context.Context`) are abstracted as
function parameters; everything written in the repository itself is
translated line by line.
-/

namespace OpenRouterCLI

/-! ## Transport Client retry loop

`internal/api/client.go` and the generic `doWithRetry` helper.  A request
attempt is observed through its outcome: a network-level error from
`reqFn` (`resp, err := reqFn(ctx)` with `err != nil`) or an HTTP response
with a status code and a body.  The response handler `handleFn` is only
invoked on 2xx responses.  `context.Context` is abstracted as the predicate
`ctxDone` telling whether the context is cancelled when the loop iteration
for a given attempt index begins (a cancellation during the backoff sleep
surfaces at the top of the next iteration in this model; in both cases the
loop terminates with a context error and performs no further request).
-/

/-- `RetryConfig` (internal/api/client.go): max retries and backoff bounds
(durations in nanoseconds, as Go's `time.Duration` ticks). -/
structure RetryConfig where
  maxRetries : Nat
  initialBackoff : Nat
  maxBackoff : Nat
deriving Repr, DecidableEq

/-- The observable outcome of one execution of `reqFn`: either a network
error (`err != nil`) or an HTTP response with status code and body. -/
inductive AttemptOutcome where
  | netErr (msg : String)
  | httpResp (statusCode : Nat) (body : String)
deriving Repr, DecidableEq

/-- The Go `error` values produced by the transport client and stream
reader: `fmt.Errorf("sending request: %w", err)`, `APIError` with
status+body, `APIError` with only a message (embedded error object),
a JSON decode failure, a `StreamError`, and a context error. -/
inductive GoError where
  | sendingRequest (msg : String)
  | apiStatusError (statusCode : Nat) (body : String)
  | apiMessageError (msg : String)
  | decodingResponse
  | streamReadError (msg : String)
  | ctxError
deriving Repr, DecidableEq

/-- `isSuccessStatus` (client.go): 2xx. -/
def isSuccessStatus (code : Nat) : Bool :=
  decide (200 ≤ code) && decide (code < 300)

/-- `isRetryableStatus` (client.go): 429, 503, 504 or any 5xx. -/
def isRetryableStatus (code : Nat) : Bool :=
  code == 429 || code == 503 || code == 504 || decide (500 ≤ code)

/-- `client.shouldRetry` (client.go): no retry when the retry config is nil
or the attempt index has reached `MaxRetries`; otherwise retry on network
errors and on retryable status codes. -/
def shouldRetry (retry : Option RetryConfig) (hasErr : Bool) (statusCode attempt : Nat) : Bool :=
  match retry with
  | none => false
  | some rc =>
    if decide (rc.maxRetries ≤ attempt) then false
    else if hasErr then true
    else isRetryableStatus statusCode

/-- Number of retries allowed by an optional retry config (used as the
termination measure of the retry loop). -/
def retryFuel (retry : Option RetryConfig) : Nat :=
  match retry with
  | none => 0
  | some rc => rc.maxRetries

theorem shouldRetry_lt {retry : Option RetryConfig} {hasErr : Bool} {statusCode attempt : Nat}
    (h : shouldRetry retry hasErr statusCode attempt = true) :
    attempt < retryFuel retry := by
  cases retry with
  | none => simp [shouldRetry] at h
  | some rc =>
    simp only [shouldRetry, retryFuel] at h ⊢
    by_cases hle : rc.maxRetries ≤ attempt
    · simp [hle] at h
    · omega

/-- The retry loop of `doWithRetry` (client.go), starting at a given
attempt index.  Returns the Go result (`(T, error)` modelled as `Except`)
paired with the total number of the last attempt plus one, i.e. how many
requests were performed (when the context is already cancelled the loop
returns before performing the request, so the count stays at `attempt`).
Each loop iteration: check `ctx.Err()`, run `reqFn`; on a network error
retry iff `shouldRetry(err, 0, attempt)`; on a non-2xx response build an
`APIError{StatusCode, Body}` and retry iff `shouldRetry(nil, status,
attempt)`; on a 2xx response return `handleFn(resp)`. -/
def doWithRetryFrom {T : Type} (retry : Option RetryConfig) (ctxDone : Nat → Bool)
    (attempts : Nat → AttemptOutcome) (handle : Nat → String → Except GoError T)
    (attempt : Nat) : Except GoError T × Nat :=
  if ctxDone attempt then (.error .ctxError, attempt)
  else
    match attempts attempt with
    | .netErr msg =>
      if h : shouldRetry retry true 0 attempt = true then
        doWithRetryFrom retry ctxDone attempts handle (attempt + 1)
      else (.error (.sendingRequest msg), attempt + 1)
    | .httpResp statusCode body =>
      if isSuccessStatus statusCode then (handle statusCode body, attempt + 1)
      else if h : shouldRetry retry false statusCode attempt = true then
        doWithRetryFrom retry ctxDone attempts handle (attempt + 1)
      else (.error (.apiStatusError statusCode body), attempt + 1)
termination_by retryFuel retry + 1 - attempt
decreasing_by
  · have := shouldRetry_lt h
    omega
  · have := shouldRetry_lt h
    omega

/-- `doWithRetry` (client.go): the loop started at attempt 0. -/
def doWithRetry {T : Type} (retry : Option RetryConfig) (ctxDone : Nat → Bool)
    (attempts : Nat → AttemptOutcome) (handle : Nat → String → Except GoError T) :
    Except GoError T × Nat :=
  doWithRetryFrom retry ctxDone attempts handle 0

/-- An attempt outcome that fails retryably: a network error, or an HTTP
response with a retryable status code (429/503/504/5xx). -/
def retryableFailure : AttemptOutcome → Bool
  | .netErr _ => true
  | .httpResp statusCode _ => isRetryableStatus statusCode

/-- The `lastErr` value the loop stores for a failing attempt: the wrapped
network error, or `APIError{StatusCode, Body}`. -/
def lastAttemptError : AttemptOutcome → GoError
  | .netErr msg => .sendingRequest msg
  | .httpResp statusCode body => .apiStatusError statusCode body

theorem retryable_not_success {code : Nat} (h : isRetryableStatus code = true) :
    isSuccessStatus code = false := by
  simp only [isRetryableStatus, isSuccessStatus, Bool.or_eq_true, beq_iff_eq,
    decide_eq_true_eq, Bool.and_eq_false_iff, decide_eq_false_iff_not] at h ⊢
  omega

theorem doWithRetryFrom_reaches_success {T : Type} (rc : RetryConfig) (ctxDone : Nat → Bool)
    (attempts : Nat → AttemptOutcome) (handle : Nat → String → Except GoError T)
    (k n statusCode : Nat) (body : String)
    (hctx : ∀ i, ctxDone i = false)
    (hkn : k ≤ n) (hnM : n ≤ rc.maxRetries)
    (hfail : ∀ i, k ≤ i → i < n → retryableFailure (attempts i) = true)
    (hn : attempts n = .httpResp statusCode body)
    (hok : isSuccessStatus statusCode = true) :
    doWithRetryFrom (some rc) ctxDone attempts handle k = (handle statusCode body, n + 1) := by
  obtain ⟨d, hd⟩ : ∃ d, n = k + d := ⟨n - k, by omega⟩
  clear hkn
  induction d generalizing k with
  | zero =>
    have hk : k = n := by omega
    subst hk
    rw [doWithRetryFrom]
    simp [hctx, hn, hok]
  | succ d ih =>
    have hkn : k < n := by omega
    have hfk := hfail k (Nat.le_refl k) hkn
    rw [doWithRetryFrom]
    cases hA : attempts k with
    | netErr msg =>
      have hsr : shouldRetry (some rc) true 0 k = true := by
        simp only [shouldRetry]
        have : ¬ rc.maxRetries ≤ k := by omega
        simp [this]
      simp only [hctx, Bool.false_eq_true, if_false, hA, hsr, dif_pos]
      exact ih (k + 1) (fun i h1 h2 => hfail i (by omega) h2) (by omega)
    | httpResp s b =>
      rw [hA] at hfk
      simp only [retryableFailure] at hfk
      have hns : isSuccessStatus s = false := retryable_not_success hfk
      have hsr : shouldRetry (some rc) false s k = true := by
        simp only [shouldRetry]
        have : ¬ rc.maxRetries ≤ k := by omega
        simp [this, hfk]
      simp only [hctx, Bool.false_eq_true, if_false, hA, hns, hsr, dif_pos]
      exact ih (k + 1) (fun i h1 h2 => hfail i (by omega) h2) (by omega)

theorem doWithRetryFrom_exhausts {T : Type} (rc : RetryConfig) (ctxDone : Nat → Bool)
    (attempts : Nat → AttemptOutcome) (handle : Nat → String → Except GoError T)
    (k : Nat)
    (hctx : ∀ i, ctxDone i = false)
    (hkM : k ≤ rc.maxRetries)
    (hfail : ∀ i, k ≤ i → i ≤ rc.maxRetries → retryableFailure (attempts i) = true) :
    doWithRetryFrom (some rc) ctxDone attempts handle k
      = (.error (lastAttemptError (attempts rc.maxRetries)), rc.maxRetries + 1) := by
  obtain ⟨d, hd⟩ : ∃ d, rc.maxRetries = k + d := ⟨rc.maxRetries - k, by omega⟩
  clear hkM
  induction d generalizing k with
  | zero =>
    have hk : k = rc.maxRetries := by omega
    have hfk := hfail k (Nat.le_refl k) (by omega)
    rw [doWithRetryFrom]
    cases hA : attempts k with
    | netErr msg =>
      have hsr : shouldRetry (some rc) true 0 k = false := by
        simp only [shouldRetry]
        have : rc.maxRetries ≤ k := by omega
        simp [this]
      simp [hctx, hA, hsr, ← hk, lastAttemptError]
    | httpResp s b =>
      rw [hA] at hfk
      simp only [retryableFailure] at hfk
      have hns : isSuccessStatus s = false := retryable_not_success hfk
      have hsr : shouldRetry (some rc) false s k = false := by
        simp only [shouldRetry]
        have : rc.maxRetries ≤ k := by omega
        simp [this]
      simp [hctx, hA, hns, hsr, ← hk, lastAttemptError]
  | succ d ih =>
    have hkn : k < rc.maxRetries := by omega
    have hfk := hfail k (Nat.le_refl k) (by omega)
    rw [doWithRetryFrom]
    cases hA : attempts k with
    | netErr msg =>
      have hsr : shouldRetry (some rc) true 0 k = true := by
        simp only [shouldRetry]
        have : ¬ rc.maxRetries ≤ k := by omega
        simp [this]
      simp only [hctx, Bool.false_eq_true, if_false, hA, hsr, dif_pos]
      exact ih (k + 1) (fun i h1 h2 => hfail i (by omega) h2) (by omega)
    | httpResp s b =>
      rw [hA] at hfk
      simp only [retryableFailure] at hfk
      have hns : isSuccessStatus s = false := retryable_not_success hfk
      have hsr : shouldRetry (some rc) false s k = true := by
        simp only [shouldRetry]
        have : ¬ rc.maxRetries ≤ k := by omega
        simp [this, hfk]
      simp only [hctx, Bool.false_eq_true, if_false, hA, hns, hsr, dif_pos]
      exact ih (k + 1) (fun i h1 h2 => hfail i (by omega) h2) (by omega)

/-! ## The Chat response handler

`client.Chat` (client.go): the handler passed to `doWithRetry` decodes the
2xx body as a `ChatResponse`; a decode failure is an error, and a decoded
body whose `Error` field is non-nil becomes `APIError{Message}`.  The
string-level JSON decoding performed by `encoding/json` (library code, not
part of this repository) is abstracted as the `decodeBody` parameter. -/

/-- `Choice` (internal/api/types.go), restricted to the fields the core
reads: `Delta.Content` and `FinishReason`. -/
structure Choice where
  deltaContent : String
  finishReason : Option String
deriving Repr, DecidableEq

/-- `ChatResponse` (internal/api/types.go): the choices list and the
optional embedded error object (`Error *struct{ Message string }`,
modelled as the optional message). -/
structure ChatResponse where
  choices : List Choice
  error : Option String
deriving Repr, DecidableEq

/-- The response handler of `client.Chat` (client.go): decode the body;
surface `chatResp.Error` as `APIError{Message}`; otherwise return the
decoded response. -/
def chatHandle (decodeBody : String → Option ChatResponse) :
    Nat → String → Except GoError ChatResponse :=
  fun _ body =>
    match decodeBody body with
    | none => .error .decodingResponse
    | some resp =>
      match resp.error with
      | some msg => .error (.apiMessageError msg)
      | none => .ok resp

/-! ## Claims C1, C2, C5 -/

/-- C1: for every retry configuration with max retries `M` and every
request whose first `N` attempts fail retryably (network error, or HTTP
status 429/503/504/5xx) and whose attempt `N+1` succeeds, with `N ≤ M`,
the retry loop performs exactly `N+1` attempts and returns the handler's
result for the successful response. -/
theorem doWithRetry_retryable_then_success {T : Type} (rc : RetryConfig)
    (ctxDone : Nat → Bool) (attempts : Nat → AttemptOutcome)
    (handle : Nat → String → Except GoError T)
    (n statusCode : Nat) (body : String)
    (hctx : ∀ i, ctxDone i = false)
    (hnM : n ≤ rc.maxRetries)
    (hfail : ∀ i, i < n → retryableFailure (attempts i) = true)
    (hn : attempts n = .httpResp statusCode body)
    (hok : isSuccessStatus statusCode = true) :
    doWithRetry (some rc) ctxDone attempts handle = (handle statusCode body, n + 1) :=
  doWithRetryFrom_reaches_success rc ctxDone attempts handle 0 n statusCode body
    hctx (Nat.zero_le n) hnM (fun i _ h2 => hfail i h2) hn hok

/-- Witness for C1: max retries 2, one network failure, then a 200
response; the loop performs 2 attempts and returns the handler result. -/
theorem doWithRetry_retryable_then_success_witness :
    doWithRetry (T := Nat × String) (some ⟨2, 500000000, 5000000000⟩) (fun _ => false)
      (fun i => if i = 0 then .netErr "connection refused" else .httpResp 200 "ok")
      (fun s b => .ok (s, b))
      = (.ok (200, "ok"), 2) :=
  doWithRetry_retryable_then_success ⟨2, 500000000, 5000000000⟩ (fun _ => false)
    (fun i => if i = 0 then .netErr "connection refused" else .httpResp 200 "ok")
    (fun s b => .ok (s, b)) 1 200 "ok"
    (fun _ => rfl) (by decide)
    (fun i hi => by
      have : i = 0 := by omega
      subst this
      rfl)
    rfl rfl

/-- C2: for every retry configuration with max retries `M` and every
request whose attempts all fail retryably, the retry loop performs exactly
`M+1` attempts and returns the error produced by the last attempt (for a
non-2xx status: an `APIError` carrying the status code and response
body). -/
theorem doWithRetry_exhausts_retries {T : Type} (rc : RetryConfig)
    (ctxDone : Nat → Bool) (attempts : Nat → AttemptOutcome)
    (handle : Nat → String → Except GoError T)
    (hctx : ∀ i, ctxDone i = false)
    (hfail : ∀ i, i ≤ rc.maxRetries → retryableFailure (attempts i) = true) :
    doWithRetry (some rc) ctxDone attempts handle
      = (.error (lastAttemptError (attempts rc.maxRetries)), rc.maxRetries + 1) :=
  doWithRetryFrom_exhausts rc ctxDone attempts handle 0 hctx (Nat.zero_le _)
    (fun i _ h2 => hfail i h2)

/-- Witness for C2: max retries 2, every attempt answers 503; the loop
performs 3 attempts and returns the `APIError` of the last attempt. -/
theorem doWithRetry_exhausts_retries_witness :
    doWithRetry (T := Nat) (some ⟨2, 500000000, 5000000000⟩) (fun _ => false)
      (fun i => .httpResp 503 (toString i)) (fun s _ => .ok s)
      = (.error (.apiStatusError 503 "2"), 3) :=
  doWithRetry_exhausts_retries ⟨2, 500000000, 5000000000⟩ (fun _ => false)
    (fun i => .httpResp 503 (toString i)) (fun s _ => .ok s)
    (fun _ => rfl) (fun _ _ => rfl)

/-- C5: for every `Chat` call that receives a 2xx HTTP response whose
decoded body carries an embedded error object, the transport client
returns that as a terminal `APIError{Message}` after exactly the attempts
needed to reach that response — no further attempt is made, regardless of
how many retries remain in the configuration. -/
theorem chat_embedded_error_terminal (rc : RetryConfig) (ctxDone : Nat → Bool)
    (attempts : Nat → AttemptOutcome) (decodeBody : String → Option ChatResponse)
    (k statusCode : Nat) (body msg : String) (resp : ChatResponse)
    (hctx : ∀ i, ctxDone i = false)
    (hkM : k ≤ rc.maxRetries)
    (hfail : ∀ i, i < k → retryableFailure (attempts i) = true)
    (hk : attempts k = .httpResp statusCode body)
    (hok : isSuccessStatus statusCode = true)
    (hdec : decodeBody body = some resp)
    (herr : resp.error = some msg) :
    doWithRetry (some rc) ctxDone attempts (chatHandle decodeBody)
      = (.error (.apiMessageError msg), k + 1) := by
  have h := doWithRetryFrom_reaches_success rc ctxDone attempts (chatHandle decodeBody)
    0 k statusCode body hctx (Nat.zero_le k) hkM (fun i _ h2 => hfail i h2) hk hok
  rw [doWithRetry, h, chatHandle]
  simp [hdec, herr]

/-- Witness for C5: max retries 3, the first attempt already answers 200
with a body that decodes to a response carrying an embedded error; the
client stops after 1 attempt with `APIError{Message}`. -/
theorem chat_embedded_error_terminal_witness :
    doWithRetry (some ⟨3, 500000000, 5000000000⟩) (fun _ => false)
      (fun _ => .httpResp 200 "errbody")
      (chatHandle (fun b => if b = "errbody" then some ⟨[], some "quota exceeded"⟩ else none))
      = (.error (.apiMessageError "quota exceeded"), 1) :=
  chat_embedded_error_terminal ⟨3, 500000000, 5000000000⟩ (fun _ => false)
    (fun _ => .httpResp 200 "errbody")
    (fun b => if b = "errbody" then some ⟨[], some "quota exceeded"⟩ else none)
    0 200 "errbody" "quota exceeded" ⟨[], some "quota exceeded"⟩
    (fun _ => rfl) (by decide) (fun i hi => absurd hi (by omega))
    rfl rfl (by simp) rfl

/-! ## Stream Reader

`internal/api/stream.go`.  The `bufio.Scanner` over the response body is
modelled by the list of lines it will produce plus the optional transport
read error that `scanner.Err()` reports after the last line.  The
string-level `json.Unmarshal` of a data payload into a `ChatResponse`
(library code partnering the reader) is abstracted as the `parse`
parameter; `none` models a malformed payload. -/

/-- `strings.HasPrefix pre s` (Go stdlib), on the character lists
underlying the strings. -/
def hasPrefix (s pre : String) : Bool := pre.data.isPrefixOf s.data

/-- `strings.TrimPrefix` (Go stdlib): drop `pre` when it is a prefix,
otherwise return the string unchanged. -/
def trimPrefix (s pre : String) : String :=
  if hasPrefix s pre then ⟨s.data.drop pre.data.length⟩ else s

/-- `bufio.ScanLines` drops one trailing carriage return from a line. -/
def dropTrailingCr (l : List Char) : List Char :=
  if l.getLast? = some '\r' then l.dropLast else l

/-- Worker for `scanLines`: the unread characters and the current line
accumulated in reverse. -/
def scanLinesGo : List Char → List Char → List String
  | [], acc => if acc.isEmpty then [] else [⟨dropTrailingCr acc.reverse⟩]
  | c :: cs, acc =>
    if c = '\n' then ⟨dropTrailingCr acc.reverse⟩ :: scanLinesGo cs []
    else scanLinesGo cs (c :: acc)

/-- The token sequence `bufio.Scanner` with `bufio.ScanLines` produces for
a body: split at newlines; a trailing newline yields no final empty
token; a final line without a newline is still yielded. -/
def scanLines (s : String) : List String := scanLinesGo s.data []

/-- `StreamChunk` (stream.go). -/
structure StreamChunk where
  content : String
  done : Bool
  finishReason : Option String
deriving Repr, DecidableEq

/-- `StreamReader` (stream.go): remaining scanner lines, the read error
`scanner.Err()` will report once the lines are exhausted, and the `done`
flag.  (The Go struct's `err` field is never written or read by the
repository and is omitted.) -/
structure StreamReader where
  lines : List String
  readErr : Option String
  done : Bool
deriving Repr, DecidableEq

/-- `NewStreamReader` (stream.go) over a body whose full contents and
eventual read error are given. -/
def NewStreamReader (contents : String) (readErr : Option String) : StreamReader :=
  ⟨scanLines contents, readErr, false⟩

/-- The scan loop inside `StreamReader.Next` (stream.go): skip empty and
comment lines and lines without the `data: ` marker; strip the marker; the
`[DONE]` sentinel ends the stream with a done chunk; a malformed payload
is skipped; a parsed record with an embedded error ends the stream with
`APIError{Message}`; a record with choices yields a chunk with the first
choice's delta text and finish reason; when the lines run out, a scanner
error ends the stream with a `StreamError`, otherwise the missing sentinel
is treated as a normal done. -/
def nextLoop (parse : String → Option ChatResponse) (readErr : Option String) :
    List String → StreamReader × Option StreamChunk × Option GoError
  | [] =>
    match readErr with
    | some msg => (⟨[], some msg, true⟩, none, some (.streamReadError msg))
    | none => (⟨[], none, true⟩, some ⟨"", true, none⟩, none)
  | line :: rest =>
    if line.data.isEmpty || hasPrefix line ":" then nextLoop parse readErr rest
    else if !hasPrefix line "data: " then nextLoop parse readErr rest
    else
      let d := trimPrefix line "data: "
      if d = "[DONE]" then (⟨rest, readErr, true⟩, some ⟨"", true, none⟩, none)
      else
        match parse d with
        | none => nextLoop parse readErr rest
        | some resp =>
          match resp.error with
          | some msg => (⟨rest, readErr, true⟩, none, some (.apiMessageError msg))
          | none =>
            match resp.choices with
            | [] => nextLoop parse readErr rest
            | choice :: _ =>
              (⟨rest, readErr, false⟩, some ⟨choice.deltaContent, false, choice.finishReason⟩, none)

/-- `StreamReader.Next` (stream.go): an immediate `nil, nil` once done,
otherwise the scan loop.  Returns the reader after the call together with
the Go return pair `(*StreamChunk, error)`. -/
def StreamReader.next (parse : String → Option ChatResponse) (r : StreamReader) :
    StreamReader × Option StreamChunk × Option GoError :=
  if r.done then (r, none, none)
  else nextLoop parse r.readErr r.lines

/-- `StreamReader.Close` (stream.go): set `done` and close the body. -/
def StreamReader.close (r : StreamReader) : StreamReader :=
  { r with done := true }

theorem isPrefixOf_append_self (l t : List Char) : l.isPrefixOf (l ++ t) = true := by
  induction l with
  | nil => simp
  | cons a as ih => simp [ih]

theorem dataLine_not_empty (p : String) : ("data: " ++ p).data.isEmpty = false := rfl

theorem dataLine_not_comment (p : String) : hasPrefix ("data: " ++ p) ":" = false := rfl

theorem dataLine_hasPrefix (p : String) : hasPrefix ("data: " ++ p) "data: " = true := by
  simp [hasPrefix, String.data_append, isPrefixOf_append_self]

theorem dataLine_trimPrefix (p : String) : trimPrefix ("data: " ++ p) "data: " = p := by
  simp [trimPrefix, dataLine_hasPrefix, String.data_append, List.drop_left]

/-- Evaluation of the scan loop on a data line with a non-sentinel payload. -/
theorem nextLoop_data_cons (parse : String → Option ChatResponse) (readErr : Option String)
    (p : String) (rest : List String) (hp : ¬ p = "[DONE]") :
    nextLoop parse readErr (("data: " ++ p) :: rest) =
      match parse p with
      | none => nextLoop parse readErr rest
      | some resp =>
        match resp.error with
        | some msg => (⟨rest, readErr, true⟩, none, some (.apiMessageError msg))
        | none =>
          match resp.choices with
          | [] => nextLoop parse readErr rest
          | choice :: _ =>
            (⟨rest, readErr, false⟩, some ⟨choice.deltaContent, false, choice.finishReason⟩, none) := by
  rw [nextLoop]
  simp [dataLine_not_empty, dataLine_not_comment, dataLine_hasPrefix, dataLine_trimPrefix, hp]

/-- The scan loop marks the reader done whenever it returns an error, and
whenever it returns a done chunk. -/
theorem nextLoop_marks_done (parse : String → Option ChatResponse) (readErr : Option String)
    (lines : List String) :
    ((nextLoop parse readErr lines).2.2.isSome = true →
      (nextLoop parse readErr lines).1.done = true) ∧
    (∀ ch, (nextLoop parse readErr lines).2.1 = some ch → ch.done = true →
      (nextLoop parse readErr lines).1.done = true) := by
  induction lines with
  | nil => cases readErr <;> simp [nextLoop]
  | cons line rest ih =>
    simp only [nextLoop]
    split
    · exact ih
    split
    · exact ih
    split
    · simp
    split
    · exact ih
    split
    · simp
    split
    · exact ih
    · constructor
      · simp
      · intro ch hch
        simp only [Option.some.injEq] at hch
        subst hch
        simp

/-! ## Claims C3, C4, C10 -/

/-- C3: fed the exact input
`"data: \x7b...A...\x7d\n\ndata: \x7b...B...\x7d\n\ndata: [DONE]\n"`
(two well-formed delta records and the sentinel), the Stream Reader's
successive `Next` calls yield the chunk for A, then the chunk for B, then
the done signal, in that order; every `Next` call after the done signal
returns no further chunk (and no error). -/
theorem streamReader_yields_A_B_done (parse : String → Option ChatResponse) (cA cB : Choice)
    (hA : parse "\x7bA\x7d" = some ⟨[cA], none⟩)
    (hB : parse "\x7bB\x7d" = some ⟨[cB], none⟩) :
    StreamReader.next parse
        (NewStreamReader "data: \x7bA\x7d\n\ndata: \x7bB\x7d\n\ndata: [DONE]\n" none)
      = (⟨["", "data: \x7bB\x7d", "", "data: [DONE]"], none, false⟩,
         some ⟨cA.deltaContent, false, cA.finishReason⟩, none) ∧
    StreamReader.next parse ⟨["", "data: \x7bB\x7d", "", "data: [DONE]"], none, false⟩
      = (⟨["", "data: [DONE]"], none, false⟩,
         some ⟨cB.deltaContent, false, cB.finishReason⟩, none) ∧
    StreamReader.next parse ⟨["", "data: [DONE]"], none, false⟩
      = (⟨[], none, true⟩, some ⟨"", true, none⟩, none) ∧
    (∀ r : StreamReader, r.done = true → StreamReader.next parse r = (r, none, none)) := by
  refine ⟨?_, ?_, rfl, fun r h => by simp [StreamReader.next, h]⟩
  · rw [show StreamReader.next parse
          (NewStreamReader "data: \x7bA\x7d\n\ndata: \x7bB\x7d\n\ndata: [DONE]\n" none)
        = nextLoop parse none
            (("data: " ++ "\x7bA\x7d") :: ["", "data: \x7bB\x7d", "", "data: [DONE]"]) from rfl,
      nextLoop_data_cons parse none "\x7bA\x7d" _ (by decide), hA]
  · rw [show StreamReader.next parse ⟨["", "data: \x7bB\x7d", "", "data: [DONE]"], none, false⟩
        = nextLoop parse none (("data: " ++ "\x7bB\x7d") :: ["", "data: [DONE]"]) from rfl,
      nextLoop_data_cons parse none "\x7bB\x7d" _ (by decide), hB]

/-- Witness for C3: a concrete parse function mapping the two payloads to
one-choice records; the first `Next` yields A's delta. -/
theorem streamReader_yields_A_B_done_witness :
    StreamReader.next
        (fun s => if s = "\x7bA\x7d" then some ⟨[⟨"Hel", none⟩], none⟩
                  else if s = "\x7bB\x7d" then some ⟨[⟨"lo", none⟩], none⟩ else none)
        (NewStreamReader "data: \x7bA\x7d\n\ndata: \x7bB\x7d\n\ndata: [DONE]\n" none)
      = (⟨["", "data: \x7bB\x7d", "", "data: [DONE]"], none, false⟩,
         some ⟨"Hel", false, none⟩, none) :=
  (streamReader_yields_A_B_done
    (fun s => if s = "\x7bA\x7d" then some ⟨[⟨"Hel", none⟩], none⟩
              else if s = "\x7bB\x7d" then some ⟨[⟨"lo", none⟩], none⟩ else none)
    ⟨"Hel", none⟩ ⟨"lo", none⟩ (by simp) (by simp)).1

/-- C4: a data line whose payload fails to parse is skipped by `Next`
without terminating the stream — the call behaves exactly as if the line
were absent, so later well-formed records are still yielded — whereas a
data line whose payload parses to a record carrying an embedded error
field makes `Next` return that error immediately and marks the stream
done. -/
theorem streamReader_skips_malformed_stops_on_error (parse : String → Option ChatResponse)
    (p : String) (rest : List String) (readErr : Option String) (hp : ¬ p = "[DONE]") :
    (parse p = none →
      StreamReader.next parse ⟨("data: " ++ p) :: rest, readErr, false⟩
        = StreamReader.next parse ⟨rest, readErr, false⟩) ∧
    (∀ resp msg, parse p = some resp → resp.error = some msg →
      StreamReader.next parse ⟨("data: " ++ p) :: rest, readErr, false⟩
        = (⟨rest, readErr, true⟩, none, some (.apiMessageError msg))) := by
  constructor
  · intro hnone
    show nextLoop parse readErr (("data: " ++ p) :: rest) = nextLoop parse readErr rest
    rw [nextLoop_data_cons parse readErr p rest hp, hnone]
  · intro resp msg hsome herr
    show nextLoop parse readErr (("data: " ++ p) :: rest) = _
    rw [nextLoop_data_cons parse readErr p rest hp, hsome]
    simp [herr]

/-- Witness for C4: with a parse function that fails on payload `bad`,
yields a chunk for `good` and an embedded error for `err`, a malformed
line is skipped (the later record is still yielded) and an embedded-error
line terminates with the error. -/
theorem streamReader_skips_malformed_stops_on_error_witness :
    (StreamReader.next
        (fun s => if s = "good" then some ⟨[⟨"hi", none⟩], none⟩
                  else if s = "err" then some ⟨[], some "boom"⟩ else none)
        ⟨["data: bad", "data: good"], none, false⟩
      = (⟨[], none, false⟩, some ⟨"hi", false, none⟩, none)) ∧
    (StreamReader.next
        (fun s => if s = "good" then some ⟨[⟨"hi", none⟩], none⟩
                  else if s = "err" then some ⟨[], some "boom"⟩ else none)
        ⟨["data: err", "data: good"], none, false⟩
      = (⟨["data: good"], none, true⟩, none, some (.apiMessageError "boom"))) := by
  constructor
  · exact ((streamReader_skips_malformed_stops_on_error
        (fun s => if s = "good" then some ⟨[⟨"hi", none⟩], none⟩
                  else if s = "err" then some ⟨[], some "boom"⟩ else none)
        "bad" ["data: good"] none (by decide)).1 (by simp)).trans rfl
  · exact (streamReader_skips_malformed_stops_on_error
      (fun s => if s = "good" then some ⟨[⟨"hi", none⟩], none⟩
                else if s = "err" then some ⟨[], some "boom"⟩ else none)
      "err" ["data: good"] none (by decide)).2 ⟨[], some "boom"⟩ "boom" (by simp) rfl

/-- C10: once the reader is marked done — because `Next` returned the done
signal or an error, or because `Close` was called (possible before any
`Next`) — every subsequent `Next` returns `nil, nil` and leaves the reader
(and hence the remaining input) untouched; and each of those three events
does mark the reader done. -/
theorem streamReader_done_absorbing (parse : String → Option ChatResponse) (r : StreamReader) :
    (r.done = true → StreamReader.next parse r = (r, none, none)) ∧
    (StreamReader.close r).done = true ∧
    (∀ r' c e, StreamReader.next parse r = (r', c, some e) → r'.done = true) ∧
    (∀ r' ch e, StreamReader.next parse r = (r', some ch, e) → ch.done = true →
      r'.done = true) := by
  refine ⟨fun h => by simp [StreamReader.next, h], rfl, ?_, ?_⟩
  · intro r' c e h
    by_cases hd : r.done = true
    · simp [StreamReader.next, hd] at h
    · rw [StreamReader.next, if_neg hd] at h
      have h2 := (nextLoop_marks_done parse r.readErr r.lines).1
      rw [h] at h2
      simpa using h2
  · intro r' ch e h hch
    by_cases hd : r.done = true
    · simp [StreamReader.next, hd] at h
    · rw [StreamReader.next, if_neg hd] at h
      have h2 := (nextLoop_marks_done parse r.readErr r.lines).2 ch
      rw [h] at h2
      exact h2 rfl hch

/-- Witness for C10: a closed reader answers `nil, nil` on `Next`. -/
theorem streamReader_done_absorbing_witness :
    StreamReader.next (fun _ => none) (StreamReader.close ⟨["data: x"], none, false⟩)
      = (⟨["data: x"], none, true⟩, none, none) :=
  (streamReader_done_absorbing (fun _ => none) (StreamReader.close ⟨["data: x"], none, false⟩)).1
    rfl

/-! ## Message JSON encoding

`internal/api/types.go` `Message.MarshalJSON` / `Message.UnmarshalJSON`.
The encoding is modelled at the level of the JSON value tree that
`encoding/json` writes and reads (string-level printing/parsing is the
library's and is invertible on value trees), with Go's decoding rules for
the struct fields involved: a missing or `null` field leaves the zero
value, a field of the wrong shape is an error, object keys emitted by the
marshaller are unique. -/

/-- A JSON value tree. -/
inductive Json where
  | str (s : String)
  | num (n : Int)
  | jbool (b : Bool)
  | null
  | arr (elems : List Json)
  | obj (fields : List (String × Json))
deriving Repr

/-- `ImageURL` (types.go). -/
structure ImageURL where
  url : String
deriving Repr, DecidableEq

/-- `ContentPart` (types.go): `Type`, `Text` (omitempty), `ImageURL`
(pointer, omitempty). -/
structure ContentPart where
  type : String
  text : String
  imageURL : Option ImageURL
deriving Repr, DecidableEq

/-- `Message` (types.go): `Role`, plus the two content fields that are
kept out of the generic encoder (`json:"-"`) and handled by the custom
marshaller. -/
structure Message where
  role : String
  content : String
  contentParts : List ContentPart
deriving Repr, DecidableEq

/-- `json.Marshal` of a `ContentPart`: `type` always, `text` unless empty
(omitempty), `image_url` unless nil (omitempty), in struct order. -/
def marshalContentPart (p : ContentPart) : Json :=
  .obj ([("type", .str p.type)]
    ++ (if p.text = "" then [] else [("text", .str p.text)])
    ++ (match p.imageURL with
        | none => []
        | some u => [("image_url", .obj [("url", .str u.url)])]))

/-- `Message.MarshalJSON` (types.go): with content parts present, content
is the array of parts; otherwise content is the plain string. -/
def marshalMessage (m : Message) : Json :=
  if 0 < m.contentParts.length then
    .obj [("role", .str m.role), ("content", .arr (m.contentParts.map marshalContentPart))]
  else
    .obj [("role", .str m.role), ("content", .str m.content)]

/-- Key lookup in a JSON object (the marshaller never emits duplicate
keys, so first-match lookup agrees with Go's last-wins rule). -/
def lookupField (fields : List (String × Json)) (key : String) : Option Json :=
  match fields with
  | [] => none
  | (k, v) :: rest => if k = key then some v else lookupField rest key

/-- Go's decoding of a `string` struct field: missing or `null` leaves the
zero value, a JSON string is taken verbatim, anything else errors. -/
def decodeStringField (fields : List (String × Json)) (key : String) : Except String String :=
  match lookupField fields key with
  | none => .ok ""
  | some .null => .ok ""
  | some (.str s) => .ok s
  | some _ => .error "cannot unmarshal into string field"

/-- Go's decoding of the `*ImageURL` field: missing or `null` is nil, an
object decodes its `url` string field, anything else errors. -/
def decodeImageURLField (fields : List (String × Json)) : Except String (Option ImageURL) :=
  match lookupField fields "image_url" with
  | none => .ok none
  | some .null => .ok none
  | some (.obj ifields) =>
    match decodeStringField ifields "url" with
    | .error e => .error e
    | .ok u => .ok (some ⟨u⟩)
  | some _ => .error "cannot unmarshal into ImageURL"

/-- `json.Unmarshal` into a `ContentPart` (`null` leaves the zero value). -/
def unmarshalContentPart : Json → Except String ContentPart
  | .obj fields =>
    match decodeStringField fields "type" with
    | .error e => .error e
    | .ok ty =>
      match decodeStringField fields "text" with
      | .error e => .error e
      | .ok tx =>
        match decodeImageURLField fields with
        | .error e => .error e
        | .ok img => .ok ⟨ty, tx, img⟩
  | .null => .ok ⟨"", "", none⟩
  | _ => .error "cannot unmarshal into ContentPart"

/-- `json.Unmarshal` into `[]ContentPart`: elementwise, first error wins. -/
def unmarshalParts : List Json → Except String (List ContentPart)
  | [] => .ok []
  | j :: rest =>
    match unmarshalContentPart j with
    | .error e => .error e
    | .ok p =>
      match unmarshalParts rest with
      | .error e => .error e
      | .ok ps => .ok (p :: ps)

/-- The loop at the end of `Message.UnmarshalJSON`: the text of the first
part with `Type == "text"` (the zero value when there is none). -/
def firstTextContent : List ContentPart → String
  | [] => ""
  | p :: rest => if p.type = "text" then p.text else firstTextContent rest

/-- `Message.UnmarshalJSON` (types.go): read `role`; an absent content is
left zero; content is tried as a string first (a JSON `null` also leaves
the string zero, per Go), then as an array of content parts, mirroring the
first text part into the plain content field; anything else errors. -/
def unmarshalMessage : Json → Except String Message
  | .obj fields =>
    match decodeStringField fields "role" with
    | .error e => .error e
    | .ok role =>
      match lookupField fields "content" with
      | none => .ok ⟨role, "", []⟩
      | some (.str s) => .ok ⟨role, s, []⟩
      | some .null => .ok ⟨role, "", []⟩
      | some (.arr elems) =>
        match unmarshalParts elems with
        | .error e => .error e
        | .ok parts => .ok ⟨role, firstTextContent parts, parts⟩
      | some _ => .error "cannot unmarshal content"
  | _ => .error "cannot unmarshal into Message"

theorem unmarshal_marshal_part (p : ContentPart) :
    unmarshalContentPart (marshalContentPart p) = .ok p := by
  obtain ⟨ty, tx, img⟩ := p
  by_cases htx : tx = ""
  · subst htx
    cases img <;>
      simp [marshalContentPart, unmarshalContentPart, decodeStringField,
        decodeImageURLField, lookupField]
  · cases img <;>
      simp [marshalContentPart, unmarshalContentPart, decodeStringField,
        decodeImageURLField, lookupField, htx]

theorem unmarshalParts_marshal (parts : List ContentPart) :
    unmarshalParts (parts.map marshalContentPart) = .ok parts := by
  induction parts with
  | nil => rfl
  | cons p rest ih => simp [unmarshalParts, unmarshal_marshal_part, ih]

/-! ## Claim C6 -/

/-- C6: JSON round-trip for messages.  A message holding only plain text
(empty content-parts list) decodes back to the same role and content; a
message holding a non-empty content-parts list decodes back to the same
parts list, with the text of the first text-typed part copied into the
plain content field. -/
theorem message_marshal_roundtrip (m : Message) :
    (m.contentParts = [] → unmarshalMessage (marshalMessage m) = .ok m) ∧
    (m.contentParts ≠ [] → unmarshalMessage (marshalMessage m)
        = .ok ⟨m.role, firstTextContent m.contentParts, m.contentParts⟩) := by
  obtain ⟨role, content, parts⟩ := m
  constructor
  · intro h
    subst h
    simp [marshalMessage, unmarshalMessage, decodeStringField, lookupField]
  · intro h
    have hlen : 0 < parts.length := by
      cases parts with
      | nil => simp at h
      | cons a l => simp
    simp [marshalMessage, hlen, unmarshalMessage, decodeStringField, lookupField,
      unmarshalParts_marshal]

/-- Witness for C6: a plain-text message round-trips unchanged; a message
with a text part and an image part round-trips to the same parts with the
first text mirrored into the content field. -/
theorem message_marshal_roundtrip_witness :
    unmarshalMessage (marshalMessage ⟨"user", "hi", []⟩) = .ok ⟨"user", "hi", []⟩ ∧
    unmarshalMessage (marshalMessage
        ⟨"user", "draft", [⟨"image_url", "", some ⟨"http://x/i.png"⟩⟩, ⟨"text", "hello", none⟩]⟩)
      = .ok ⟨"user", "hello",
          [⟨"image_url", "", some ⟨"http://x/i.png"⟩⟩, ⟨"text", "hello", none⟩]⟩ :=
  ⟨(message_marshal_roundtrip ⟨"user", "hi", []⟩).1 rfl,
   (message_marshal_roundtrip
      ⟨"user", "draft", [⟨"image_url", "", some ⟨"http://x/i.png"⟩⟩, ⟨"text", "hello", none⟩]⟩).2
     (by simp)⟩

/-! ## Input history

Two distinct structures hold the input history:
`HistoryNavigator` (internal/tui/chat/history.go), whose `Add` skips
consecutive duplicates, and the persisted `Session`
(internal/config/session.go), whose `AppendHistory` appends
unconditionally (and then saves).  On submit, `Model.Update` calls both:
`m.history.Add(userInput)` and `m.session.AppendHistory(userInput)`. -/

/-- `HistoryNavigator.Add` (history.go): append unless the history is
non-empty and its last element equals the entry
(`len(h.history) == 0 || h.history[len(h.history)-1] != entry`, written
through `getLast?`). -/
def navigatorAdd (history : List String) (entry : String) : List String :=
  if history = [] ∨ history.getLast? ≠ some entry then history ++ [entry] else history

/-- `Session.AppendHistory` (internal/config/session.go): unconditional
append (the subsequent `Save` is an external I/O effect). -/
def sessionAppendHistory (history : List String) (entry : String) : List String :=
  history ++ [entry]

theorem getLast?_navigatorAdd (history : List String) (entry : String) :
    (navigatorAdd history entry).getLast? = some entry := by
  by_cases hc : history = [] ∨ history.getLast? ≠ some entry
  · rw [navigatorAdd, if_pos hc]
    simp
  · rw [navigatorAdd, if_neg hc]
    push_neg at hc
    exact hc.2

theorem navigatorAdd_last_eq (history : List String) (entry : String)
    (h : history.getLast? = some entry) : navigatorAdd history entry = history := by
  have hne : history ≠ [] := by
    intro he
    rw [he] at h
    simp at h
  rw [navigatorAdd, if_neg]
  push_neg
  exact ⟨hne, by simp [h]⟩

/-! ## Claim C7 -/

/-- C7 counterexample: the claim asserts duplicate suppression also for
the persisted session input-history, but `Session.AppendHistory` appends
unconditionally: appending `"hi"` twice consecutively to an empty session
history yields two entries, not one. -/
theorem session_history_duplicate_counterexample :
    sessionAppendHistory (sessionAppendHistory [] "hi") "hi" = ["hi", "hi"] ∧
    (sessionAppendHistory (sessionAppendHistory [] "hi") "hi").length ≠ 1 := by
  constructor
  · rfl
  · decide

/-- C7 amended: for the in-memory navigator history, appending the same
string twice consecutively yields one entry, and appending it again after
a different entry yields a second entry for it; the persisted session
input-history instead appends unconditionally, so a consecutive duplicate
produces two entries there. -/
theorem history_duplicate_suppression (h : List String) (s t : String) :
    navigatorAdd (navigatorAdd h s) s = navigatorAdd h s ∧
    (t ≠ s → navigatorAdd (navigatorAdd (navigatorAdd h s) t) s
        = navigatorAdd h s ++ [t, s]) ∧
    sessionAppendHistory (sessionAppendHistory h s) s = h ++ [s, s] := by
  refine ⟨navigatorAdd_last_eq _ _ (getLast?_navigatorAdd h s), ?_, ?_⟩
  · intro ht
    have h1 : navigatorAdd (navigatorAdd h s) t = navigatorAdd h s ++ [t] := by
      rw [navigatorAdd, if_pos]
      refine Or.inr ?_
      simp only [getLast?_navigatorAdd, ne_eq, Option.some.injEq]
      exact fun he => ht he.symm
    have h2 : navigatorAdd (navigatorAdd h s ++ [t]) s
        = navigatorAdd h s ++ [t] ++ [s] := by
      rw [navigatorAdd, if_pos]
      refine Or.inr ?_
      simp only [List.getLast?_concat, ne_eq, Option.some.injEq]
      exact ht
    rw [h1, h2]
    simp
  · simp [sessionAppendHistory]

/-- Witness for C7 (amended): with history `[]`, entry `"a"` and distinct
entry `"b"`, the navigator ends with `["a", "b", "a"]`. -/
theorem history_duplicate_suppression_witness :
    navigatorAdd (navigatorAdd [] "a") "a" = navigatorAdd [] "a" ∧
    navigatorAdd (navigatorAdd (navigatorAdd [] "a") "b") "a" = ["a", "b", "a"] :=
  ⟨(history_duplicate_suppression [] "a" "b").1,
   (history_duplicate_suppression [] "a" "b").2.1 (by decide)⟩

/-! ## ESC handling of the chat state machine

The `tea.KeyEsc` branch of `Model.Update` (chat view update function).
The relevant model state is the textarea value and the three ESC
double-press fields; `time.Time`/`time.Duration` are nanosecond counts.
`strings.TrimSpace` is modelled by dropping whitespace characters from
both ends of the underlying character list (`Char.isWhitespace` standing
in for `unicode.IsSpace`).  The side commands
(`tea.Quit`, resetting the textarea, scheduling the `EscTimeoutMsg`
reversion tick) are reported as the outcome of the key press. -/

/-- `2 * time.Second` in nanoseconds. -/
def escDelay : Nat := 2000000000

/-- `strings.TrimSpace` (Go stdlib): remove whitespace from both ends. -/
def trimSpace (s : String) : String :=
  ⟨((s.data.dropWhile Char.isWhitespace).reverse.dropWhile Char.isWhitespace).reverse⟩

/-- The fields of the chat `Model` read and written by the ESC branch. -/
structure EscModel where
  inputValue : String
  escPressedAt : Nat
  escTimeoutActive : Bool
  escActionIsExit : Bool
deriving Repr, DecidableEq

/-- What the ESC branch does besides updating the model: quit the
application, clear the input, or show the prompt and start the 2s timer. -/
inductive EscOutcome where
  | quitApp
  | clearInput
  | armTimer
deriving Repr, DecidableEq

/-- The `tea.KeyEsc` case of `Model.Update`: a second ESC within the 2s
window executes the pending action (exit when the first press saw an empty
input, clear otherwise); a first ESC records the press time, activates the
window and chooses the action from the emptiness of the trimmed input. -/
def handleEsc (m : EscModel) (now : Nat) : EscModel × EscOutcome :=
  let isEmpty := trimSpace m.inputValue = ""
  if m.escTimeoutActive && decide (now - m.escPressedAt < escDelay) then
    if m.escActionIsExit then (m, .quitApp)
    else ({ m with inputValue := "", escTimeoutActive := false }, .clearInput)
  else
    ({ m with escPressedAt := now, escTimeoutActive := true,
              escActionIsExit := decide isEmpty }, .armTimer)

/-! ## Claim C8 -/

/-- C8 counterexample: in the Idle state (no ESC window active) with an
empty input draft, a single ESC press does not quit — it arms the
double-press window. -/
theorem esc_idle_empty_single_press_counterexample :
    (handleEsc ⟨"", 0, false, false⟩ 1000).2 = .armTimer ∧
    ¬ (handleEsc ⟨"", 0, false, false⟩ 1000).2 = .quitApp := by
  constructor
  · rfl
  · decide

/-- C8 amended: in the Idle state with an empty input draft, ESC does not
quit immediately; it transitions to the pending-exit state (window active,
action = exit, press time recorded), and a second ESC within the 2-second
window quits the application. -/
theorem esc_idle_empty_double_press_quits (m : EscModel) (now now2 : Nat)
    (hidle : m.escTimeoutActive = false)
    (hempty : trimSpace m.inputValue = "")
    (hwin : now2 - now < escDelay) :
    (handleEsc m now).2 = .armTimer ∧
    (handleEsc m now).1.escTimeoutActive = true ∧
    (handleEsc m now).1.escActionIsExit = true ∧
    (handleEsc m now).1.escPressedAt = now ∧
    (handleEsc (handleEsc m now).1 now2).2 = .quitApp := by
  have h1 : handleEsc m now
      = ({ m with escPressedAt := now, escTimeoutActive := true,
                  escActionIsExit := true }, .armTimer) := by
    simp [handleEsc, hidle, hempty]
  rw [h1]
  refine ⟨rfl, rfl, rfl, rfl, ?_⟩
  simp [handleEsc, hwin]

/-- Witness for C8 (amended): concrete empty-draft Idle model; ESC at t=5
arms the window, ESC again at t=7 quits. -/
theorem esc_idle_empty_double_press_quits_witness :
    (handleEsc ⟨"", 0, false, false⟩ 5).2 = .armTimer ∧
    (handleEsc (handleEsc ⟨"", 0, false, false⟩ 5).1 7).2 = .quitApp :=
  ⟨(esc_idle_empty_double_press_quits ⟨"", 0, false, false⟩ 5 7 rfl (by decide)
      (by decide)).1,
   (esc_idle_empty_double_press_quits ⟨"", 0, false, false⟩ 5 7 rfl (by decide)
      (by decide)).2.2.2.2⟩

/-! ## Stream session close

`internal/tui/chat/stream.go`.  Every method locks `s.mu`, so concurrent
`Close`/`Cancel` calls from the producer goroutine and an external
canceller are serialized; a racing pair is therefore modelled as the two
calls composed in either order.  The two Go channels are modelled by
whether `close(...)` has been executed on them, instrumented with how many
times it was executed — closing a Go channel twice panics, so the count
must reach exactly one. -/

/-- `StreamState` (stream.go): channel-close state, the `done` flag and
the owned reader handle (`nil` until `SetReader`). -/
structure StreamState where
  chunksClosed : Bool
  errChanClosed : Bool
  chunksCloseCount : Nat
  errChanCloseCount : Nat
  done : Bool
  reader : Option StreamReader
deriving Repr, DecidableEq

/-- `StreamState.Close` (stream.go): under the lock, when not yet done:
set `done`, close both channels, and close the reader when one is set. -/
def StreamState.close (s : StreamState) : StreamState :=
  if s.done then s
  else
    { s with done := true,
             chunksClosed := true, chunksCloseCount := s.chunksCloseCount + 1,
             errChanClosed := true, errChanCloseCount := s.errChanCloseCount + 1,
             reader := s.reader.map StreamReader.close }

/-- `StreamState.Cancel` (stream.go): under the lock, when a reader is set
and the session is not done, close the reader (only). -/
def StreamState.cancel (s : StreamState) : StreamState :=
  if s.reader.isSome ∧ s.done = false then
    { s with reader := s.reader.map StreamReader.close }
  else s

/-! ## Claim C9 -/

/-- C9: closing a stream session is idempotent: a second `Close` (also
under a serialized race with `Cancel`, in either order) leaves the session
in the same closed state as a single `Close`; the channels are closed
exactly once; the session ends done and the owned reader is closed. -/
theorem streamState_close_idempotent (s : StreamState) :
    StreamState.close (StreamState.close s) = StreamState.close s ∧
    (StreamState.close s).done = true ∧
    StreamState.close (StreamState.cancel s) = StreamState.close s ∧
    StreamState.cancel (StreamState.close s) = StreamState.close s ∧
    (s.done = false → s.chunksCloseCount = 0 → s.errChanCloseCount = 0 →
      (StreamState.close (StreamState.close s)).chunksCloseCount = 1 ∧
      (StreamState.close (StreamState.close s)).errChanCloseCount = 1) ∧
    (s.done = false → ∀ r, s.reader = some r →
      (StreamState.close s).reader = some (StreamReader.close r)) := by
  obtain ⟨cc, ec, ccc, ecc, d, rd⟩ := s
  cases d <;> cases rd <;>
    simp [StreamState.close, StreamState.cancel, StreamReader.close] <;>
    omega

/-- Witness for C9: a live session owning a reader; after a double
`Close`, each channel was closed once and the reader ends closed. -/
theorem streamState_close_idempotent_witness :
    (StreamState.close (StreamState.close
      ⟨false, false, 0, 0, false, some ⟨[], none, false⟩⟩)).chunksCloseCount = 1 ∧
    (StreamState.close
      ⟨false, false, 0, 0, false, some ⟨[], none, false⟩⟩).reader
      = some (StreamReader.close ⟨[], none, false⟩) := by
  have h := streamState_close_idempotent ⟨false, false, 0, 0, false, some ⟨[], none, false⟩⟩
  exact ⟨(h.2.2.2.2.1 rfl rfl rfl).1, h.2.2.2.2.2 rfl ⟨[], none, false⟩ rfl⟩

end OpenRouterCLI
